import Mathlib

/-!
Verification of the machine reservation service handler (`src/handler/api.ts`).

The handler orchestrates three operations (reserve, get, start) over a
Record Store, a read Cache, an Authenticator and a Machine Controller
Client.  The store and cache contents, together with access counters and
the log of controller invocations, form an explicit `SystemState` that the
embedded handlers thread through.
-/

/-- Machine lifecycle status, from `src/database/schema` as used by the
handler: `AVAILABLE`, `AWAITING_DROPOFF`, `RUNNING`. -/
inductive MachineStatus where
  | AVAILABLE
  | AWAITING_DROPOFF
  | RUNNING
deriving DecidableEq, Repr

/-- One machine record (`MachineStateDocument`): id, location, status and
the optional currently-bound job. -/
structure MachineStateDocument where
  machineId : String
  locationId : String
  status : MachineStatus
  currentJobId : Option String
deriving DecidableEq, Repr

/-- HTTP-style response codes used by the handler. -/
inductive HttpResponseCode where
  | OK
  | BAD_REQUEST
  | UNAUTHORIZED
  | NOT_FOUND
  | INTERNAL_SERVER_ERROR
deriving DecidableEq, Repr

/-- The response produced by every handler: a status code and an optional
machine record. -/
structure MachineResponseModel where
  statusCode : HttpResponseCode
  machine : Option MachineStateDocument
deriving DecidableEq, Repr

/-- An inbound request: credential token, HTTP method, path, and the body
fields used by the reserve operation. -/
structure RequestModel where
  token : String
  method : String
  path : String
  locationId : String
  jobId : String
deriving DecidableEq, Repr

/-- The observable state of the collaborators: the Record Store contents
(`store`, in store order, keyed by `machineId`), the table access counter
(`dbAccesses`, bumped by every table call as in `MachineStateTable`), the
Cache contents with read/write counters, and the log of Controller Client
`startCycle` invocations. -/
structure SystemState where
  store : List MachineStateDocument
  dbAccesses : Nat
  cache : List (String × MachineStateDocument)
  cacheGets : Nat
  cachePuts : Nat
  controllerCalls : List String
deriving DecidableEq, Repr

/-- Modelled from the spec: Record Store `listByLocation` — the machines
situated at a location, in store-returned order; every table call bumps
`dbAccesses`. -/
def tableList (s : SystemState) (loc : String) :
    List MachineStateDocument × SystemState :=
  (s.store.filter (fun m => m.locationId == loc),
   { s with dbAccesses := s.dbAccesses + 1 })

/-- Modelled from the spec: Record Store `getById` — the record with the
given machine id, or absent. -/
def tableGet (s : SystemState) (id : String) :
    Option MachineStateDocument × SystemState :=
  (s.store.find? (fun m => m.machineId == id),
   { s with dbAccesses := s.dbAccesses + 1 })

/-- Modelled from the spec (and the `updateMachineStatus` body quoted in
the handler source): set the status of the record keyed by `id`, if
present. -/
def tableUpdateStatus (s : SystemState) (id : String) (st : MachineStatus) :
    SystemState :=
  { s with
    store := s.store.map (fun m =>
      if m.machineId == id then { m with status := st } else m),
    dbAccesses := s.dbAccesses + 1 }

/-- Modelled from the spec (and the `updateMachineJobId` body quoted in
the handler source): set the current job of the record keyed by `id`, if
present. -/
def tableUpdateJobId (s : SystemState) (id : String) (jobId : String) :
    SystemState :=
  { s with
    store := s.store.map (fun m =>
      if m.machineId == id then { m with currentJobId := some jobId } else m),
    dbAccesses := s.dbAccesses + 1 }

/-- Pure view of the cache contents: the value stored under `id`, if any. -/
def cacheLookup (c : List (String × MachineStateDocument)) (id : String) :
    Option MachineStateDocument :=
  (c.find? (fun e => e.1 == id)).map (fun e => e.2)

/-- Modelled from the spec: Cache `get(id)` — non-blocking lookup, never
reads through; bumps the cache read counter. -/
def cacheGet (s : SystemState) (id : String) :
    Option MachineStateDocument × SystemState :=
  (cacheLookup s.cache id, { s with cacheGets := s.cacheGets + 1 })

/-- Modelled from the spec: Cache `put(id, record)` — unconditional
overwrite of the entry under `id`. -/
def cachePut (s : SystemState) (id : String) (v : MachineStateDocument) :
    SystemState :=
  { s with
    cache := (id, v) :: s.cache.filter (fun e => !(e.1 == id)),
    cachePuts := s.cachePuts + 1 }

/-- Modelled from the spec: Controller Client `startCycle(machineId)` —
records the remote invocation. -/
def smStartCycle (s : SystemState) (id : String) : SystemState :=
  { s with controllerCalls := s.controllerCalls ++ [id] }

/-- `handleRequestMachine`: list machines at the location; empty list →
NOT_FOUND; no AVAILABLE machine → BAD_REQUEST; otherwise take the first
AVAILABLE machine, set its status to AWAITING_DROPOFF and its job id,
re-read it from the table, cache the re-read record and return it. -/
def handleRequestMachine (locationId jobId : String) (s : SystemState) :
    MachineResponseModel × SystemState :=
  let l := tableList s locationId
  if l.1.length = 0 then
    (⟨HttpResponseCode.NOT_FOUND, none⟩, l.2)
  else
    match l.1.filter (fun m => m.status == MachineStatus.AVAILABLE) with
    | [] => (⟨HttpResponseCode.BAD_REQUEST, none⟩, l.2)
    | first :: _ =>
      let s2 := tableUpdateStatus l.2 first.machineId MachineStatus.AWAITING_DROPOFF
      let s3 := tableUpdateJobId s2 first.machineId jobId
      let g := tableGet s3 first.machineId
      match g.1 with
      | some u => (⟨HttpResponseCode.OK, some u⟩, cachePut g.2 first.machineId u)
      | none => (⟨HttpResponseCode.OK, none⟩, g.2)

/-- `handleGetMachine`: cache-aside read — cache hit returns directly; on
a miss read the table; absent → NOT_FOUND; otherwise populate the cache
and return the record. -/
def handleGetMachine (machineId : String) (s : SystemState) :
    MachineResponseModel × SystemState :=
  let c := cacheGet s machineId
  match c.1 with
  | some m => (⟨HttpResponseCode.OK, some m⟩, c.2)
  | none =>
    let g := tableGet c.2 machineId
    match g.1 with
    | none => (⟨HttpResponseCode.NOT_FOUND, none⟩, g.2)
    | some m => (⟨HttpResponseCode.OK, some m⟩, cachePut g.2 machineId m)

/-- `handleStartMachine`: resolve the machine (cache first, table on a
miss — without populating the cache); absent → NOT_FOUND; status other
than AWAITING_DROPOFF → BAD_REQUEST; otherwise call the controller, set
status RUNNING, re-read, cache the re-read record and return it. -/
def handleStartMachine (machineId : String) (s : SystemState) :
    MachineResponseModel × SystemState :=
  let c := cacheGet s machineId
  let r : Option MachineStateDocument × SystemState :=
    match c.1 with
    | some m => (some m, c.2)
    | none => tableGet c.2 machineId
  match r.1 with
  | none => (⟨HttpResponseCode.NOT_FOUND, none⟩, r.2)
  | some m =>
    if m.status != MachineStatus.AWAITING_DROPOFF then
      (⟨HttpResponseCode.BAD_REQUEST, none⟩, r.2)
    else
      let s2 := smStartCycle r.2 machineId
      let s3 := tableUpdateStatus s2 machineId MachineStatus.RUNNING
      let g := tableGet s3 machineId
      match g.1 with
      | some u => (⟨HttpResponseCode.OK, some u⟩, cachePut g.2 machineId u)
      | none => (⟨HttpResponseCode.OK, none⟩, g.2)

/-- The snapshot the start operation validates: the cached record if the
cache holds one, else the store record. -/
def resolvedSnapshot (s : SystemState) (id : String) :
    Option MachineStateDocument :=
  match cacheLookup s.cache id with
  | some m => some m
  | none => s.store.find? (fun m => m.machineId == id)

/-- The character class `[a-zA-Z0-9-]` of the dispatcher's machine-id
patterns. -/
def isIdChar (c : Char) : Bool :=
  c.isAlpha || c.isDigit || c == '-'

/-- The fixed nine characters `/machine/` opening both machine-id route
patterns. -/
def routeBase : List Char := ['/', 'm', 'a', 'c', 'h', 'i', 'n', 'e', '/']

/-- The fixed six characters `/start` closing the start route pattern. -/
def startTail : List Char := ['/', 's', 't', 'a', 'r', 't']

/-- A nonempty run of id characters, as matched by `([a-zA-Z0-9-]+)`. -/
def matchIdTail (cs : List Char) : Option (List Char) :=
  if !cs.isEmpty && cs.all isIdChar then some cs else none

/-- The route pattern of the get operation, regex
`^\/machine\/([a-zA-Z0-9-]+)$`: `/machine/` followed by a nonempty run of
id characters reaching the end of the path. -/
def matchGetMachine (path : String) : Option String :=
  if path.data.take 9 = routeBase then
    match matchIdTail (path.data.drop 9) with
    | some id => some (String.mk id)
    | none => none
  else none

/-- The route pattern of the start operation, regex
`^\/machine\/([a-zA-Z0-9-]+)\/start$`. -/
def matchStartMachine (path : String) : Option String :=
  if path.data.take 9 = routeBase then
    let rest := path.data.drop 9
    if 6 ≤ rest.length ∧ rest.drop (rest.length - 6) = startTail then
      match matchIdTail (rest.take (rest.length - 6)) with
      | some id => some (String.mk id)
      | none => none
    else none
  else none

/-- `handle`: the authentication gate followed by the dispatcher. A
rejected token is terminal (`checkToken` raises UNAUTHORIZED before any
dispatch); otherwise the request is routed to reserve, get or start, or
to the INTERNAL_SERVER_ERROR fallback when no pattern matches. The
authenticator is passed as the `validate(token) → boolean` function of
the spec. -/
def handle (auth : String → Bool) (req : RequestModel) (s : SystemState) :
    MachineResponseModel × SystemState :=
  if auth req.token = false then
    (⟨HttpResponseCode.UNAUTHORIZED, none⟩, s)
  else if req.method == "POST" && req.path == "/machine/request" then
    handleRequestMachine req.locationId req.jobId s
  else
    match req.method == "GET", matchGetMachine req.path with
    | true, some id => handleGetMachine id s
    | _, _ =>
      match req.method == "POST", matchStartMachine req.path with
      | true, some id => handleStartMachine id s
      | _, _ => (⟨HttpResponseCode.INTERNAL_SERVER_ERROR, none⟩, s)

/-! ### Store-update helper lemmas -/

theorem machineId_of_update (g : MachineStateDocument → MachineStateDocument)
    (hg : ∀ x, (g x).machineId = x.machineId)
    (l : List MachineStateDocument) (id : String) :
    (l.map (fun x => if x.machineId == id then g x else x)).map
        (fun x => x.machineId) =
      l.map (fun x => x.machineId) := by
  induction l with
  | nil => rfl
  | cons a t ih =>
    simp only [List.map_cons, ih]
    by_cases h : a.machineId = id
    · simp [h, hg]
    · simp [h]

theorem eq_of_nodup_machineIds (l : List MachineStateDocument)
    (hnd : (l.map (fun x => x.machineId)).Nodup)
    (a b : MachineStateDocument) (ha : a ∈ l) (hb : b ∈ l)
    (hab : a.machineId = b.machineId) : a = b := by
  induction l with
  | nil => cases ha
  | cons x t ih =>
    rw [List.map_cons, List.nodup_cons] at hnd
    rcases List.mem_cons.mp ha with rfl | ha'
    · rcases List.mem_cons.mp hb with rfl | hb'
      · rfl
      · exfalso
        have hmem : b.machineId ∈ t.map (fun x => x.machineId) :=
          List.mem_map_of_mem (fun x => x.machineId) hb'
        rw [← hab] at hmem
        exact hnd.1 hmem
    · rcases List.mem_cons.mp hb with rfl | hb'
      · exfalso
        have hmem : a.machineId ∈ t.map (fun x => x.machineId) :=
          List.mem_map_of_mem (fun x => x.machineId) ha'
        rw [hab] at hmem
        exact hnd.1 hmem
      · exact ih hnd.2 ha' hb'

theorem find?_map_update (l : List MachineStateDocument) (id : String)
    (g : MachineStateDocument → MachineStateDocument)
    (hg : ∀ x, (g x).machineId = x.machineId)
    (m : MachineStateDocument) (hm : m ∈ l) (hid : m.machineId = id)
    (hnd : (l.map (fun x => x.machineId)).Nodup) :
    (l.map (fun x => if x.machineId == id then g x else x)).find?
        (fun x => x.machineId == id) =
      some (g m) := by
  induction l with
  | nil => cases hm
  | cons a t ih =>
    rw [List.map_cons, List.nodup_cons] at hnd
    by_cases ha : a.machineId = id
    · have hma : m = a := by
        rcases List.mem_cons.mp hm with rfl | h
        · rfl
        · exfalso
          have hmem : m.machineId ∈ t.map (fun x => x.machineId) :=
            List.mem_map_of_mem (fun x => x.machineId) h
          rw [hid, ← ha] at hmem
          exact hnd.1 hmem
      subst hma
      simp [List.find?, ha, hg]
    · have hm' : m ∈ t := by
        rcases List.mem_cons.mp hm with rfl | h
        · exact absurd hid ha
        · exact h
      have hba : (a.machineId == id) = false := by simpa using ha
      simp only [List.map_cons, hba, Bool.false_eq_true, if_false]
      rw [List.find?_cons_of_neg _ (by simp [hba])]
      exact ih hm' hnd.2

/-! ### Claim theorems -/

/-- C1: a reserve request at a location holding at least one AVAILABLE
machine selects exactly the first AVAILABLE machine in store-returned
order, sets its status to AWAITING_DROPOFF and its `currentJobId` to the
requested job, re-reads that record from the store, overwrites the cache
entry under its id with exactly the re-read snapshot, and returns ok
carrying that snapshot. -/
theorem requestMachine_reserves_first_available
    (s : SystemState) (loc job : String)
    (m : MachineStateDocument) (rest : List MachineStateDocument)
    (hnd : (s.store.map (fun x => x.machineId)).Nodup)
    (hm : (s.store.filter (fun x => x.locationId == loc)).filter
        (fun x => x.status == MachineStatus.AVAILABLE) = m :: rest) :
    (handleRequestMachine loc job s).1 =
      ⟨HttpResponseCode.OK,
        some { m with status := MachineStatus.AWAITING_DROPOFF,
                      currentJobId := some job }⟩ ∧
    (handleRequestMachine loc job s).2.store.find?
        (fun x => x.machineId == m.machineId) =
      some { m with status := MachineStatus.AWAITING_DROPOFF,
                    currentJobId := some job } ∧
    (handleRequestMachine loc job s).2.cache =
      (m.machineId,
        { m with status := MachineStatus.AWAITING_DROPOFF,
                 currentJobId := some job }) ::
        s.cache.filter (fun e => !(e.1 == m.machineId)) := by
  have hmemf : m ∈ s.store.filter (fun x => x.locationId == loc) := by
    have h0 : m ∈ (s.store.filter (fun x => x.locationId == loc)).filter
        (fun x => x.status == MachineStatus.AVAILABLE) := by
      rw [hm]; exact List.mem_cons_self _ _
    exact List.mem_of_mem_filter h0
  have hmem : m ∈ s.store := List.mem_of_mem_filter hmemf
  have hmem1 :
      ({ m with status := MachineStatus.AWAITING_DROPOFF } :
          MachineStateDocument) ∈
        s.store.map (fun x =>
          if x.machineId == m.machineId then
            { x with status := MachineStatus.AWAITING_DROPOFF } else x) := by
    have h1 := List.mem_map_of_mem (fun x =>
      if x.machineId == m.machineId then
        { x with status := MachineStatus.AWAITING_DROPOFF } else x) hmem
    simpa using h1
  have hnd1 :
      ((s.store.map (fun x =>
          if x.machineId == m.machineId then
            { x with status := MachineStatus.AWAITING_DROPOFF } else x)).map
        (fun x => x.machineId)).Nodup := by
    rw [machineId_of_update (fun x =>
      { x with status := MachineStatus.AWAITING_DROPOFF }) (fun _ => rfl)]
    exact hnd
  have hfind :
      ((s.store.map (fun x =>
          if x.machineId == m.machineId then
            { x with status := MachineStatus.AWAITING_DROPOFF } else x)).map
        (fun x =>
          if x.machineId == m.machineId then
            { x with currentJobId := some job } else x)).find?
        (fun x => x.machineId == m.machineId) =
      some { m with status := MachineStatus.AWAITING_DROPOFF,
                    currentJobId := some job } :=
    find?_map_update _ m.machineId
      (fun x => { x with currentJobId := some job }) (fun _ => rfl)
      { m with status := MachineStatus.AWAITING_DROPOFF } hmem1 rfl hnd1
  have hlen : ¬ ((s.store.filter (fun x => x.locationId == loc)).length = 0) := by
    intro h0
    rw [List.length_eq_zero] at h0
    rw [h0] at hm
    simp at hm
  simp only [handleRequestMachine, tableList, tableUpdateStatus,
    tableUpdateJobId, tableGet, cachePut]
  rw [if_neg hlen, hm]
  simp only [hfind]
  exact ⟨trivial, trivial, trivial⟩

theorem requestMachine_reserves_first_available_witness :
    (handleRequestMachine "l1" "j1"
        ⟨[⟨"m1", "l1", MachineStatus.AVAILABLE, none⟩,
          ⟨"m2", "l1", MachineStatus.AVAILABLE, none⟩], 0, [], 0, 0, []⟩).1 =
      ⟨HttpResponseCode.OK,
        some ⟨"m1", "l1", MachineStatus.AWAITING_DROPOFF, some "j1"⟩⟩ :=
  (requestMachine_reserves_first_available
      ⟨[⟨"m1", "l1", MachineStatus.AVAILABLE, none⟩,
        ⟨"m2", "l1", MachineStatus.AVAILABLE, none⟩], 0, [], 0, 0, []⟩
      "l1" "j1" ⟨"m1", "l1", MachineStatus.AVAILABLE, none⟩
      [⟨"m2", "l1", MachineStatus.AVAILABLE, none⟩]
      (by decide) (by decide)).1

/-- C7: a successful reserve modifies exactly the selected machine record:
the store keeps its length, every record whose id differs from the
selected one is unchanged (same position, same fields), and the record at
the selected id — which by key-uniqueness is the selected machine itself —
is transitioned to AWAITING_DROPOFF with the requested job bound. -/
theorem requestMachine_frame
    (s : SystemState) (loc job : String)
    (m : MachineStateDocument) (rest : List MachineStateDocument)
    (hnd : (s.store.map (fun x => x.machineId)).Nodup)
    (hm : (s.store.filter (fun x => x.locationId == loc)).filter
        (fun x => x.status == MachineStatus.AVAILABLE) = m :: rest) :
    (handleRequestMachine loc job s).1.statusCode = HttpResponseCode.OK ∧
    (handleRequestMachine loc job s).2.store.length = s.store.length ∧
    (∀ i : Nat, ∀ d : MachineStateDocument, s.store[i]? = some d →
      d.machineId ≠ m.machineId →
      (handleRequestMachine loc job s).2.store[i]? = some d) ∧
    (∀ i : Nat, ∀ d : MachineStateDocument, s.store[i]? = some d →
      d.machineId = m.machineId →
      d = m ∧ (handleRequestMachine loc job s).2.store[i]? =
        some { m with status := MachineStatus.AWAITING_DROPOFF,
                      currentJobId := some job }) := by
  have hmemf : m ∈ s.store.filter (fun x => x.locationId == loc) := by
    have h0 : m ∈ (s.store.filter (fun x => x.locationId == loc)).filter
        (fun x => x.status == MachineStatus.AVAILABLE) := by
      rw [hm]; exact List.mem_cons_self _ _
    exact List.mem_of_mem_filter h0
  have hmem : m ∈ s.store := List.mem_of_mem_filter hmemf
  have hmem1 :
      ({ m with status := MachineStatus.AWAITING_DROPOFF } :
          MachineStateDocument) ∈
        s.store.map (fun x =>
          if x.machineId == m.machineId then
            { x with status := MachineStatus.AWAITING_DROPOFF } else x) := by
    have h1 := List.mem_map_of_mem (fun x =>
      if x.machineId == m.machineId then
        { x with status := MachineStatus.AWAITING_DROPOFF } else x) hmem
    simpa using h1
  have hnd1 :
      ((s.store.map (fun x =>
          if x.machineId == m.machineId then
            { x with status := MachineStatus.AWAITING_DROPOFF } else x)).map
        (fun x => x.machineId)).Nodup := by
    rw [machineId_of_update (fun x =>
      { x with status := MachineStatus.AWAITING_DROPOFF }) (fun _ => rfl)]
    exact hnd
  have hfind :
      ((s.store.map (fun x =>
          if x.machineId == m.machineId then
            { x with status := MachineStatus.AWAITING_DROPOFF } else x)).map
        (fun x =>
          if x.machineId == m.machineId then
            { x with currentJobId := some job } else x)).find?
        (fun x => x.machineId == m.machineId) =
      some { m with status := MachineStatus.AWAITING_DROPOFF,
                    currentJobId := some job } :=
    find?_map_update _ m.machineId
      (fun x => { x with currentJobId := some job }) (fun _ => rfl)
      { m with status := MachineStatus.AWAITING_DROPOFF } hmem1 rfl hnd1
  have hlen0 : ¬ ((s.store.filter (fun x => x.locationId == loc)).length = 0) := by
    intro h0
    rw [List.length_eq_zero] at h0
    rw [h0] at hm
    simp at hm
  simp only [handleRequestMachine, tableList, tableUpdateStatus,
    tableUpdateJobId, tableGet, cachePut]
  rw [if_neg hlen0, hm]
  simp only [hfind]
  refine ⟨trivial, by simp, ?_, ?_⟩
  · intro i d hd hne
    have hb : (d.machineId == m.machineId) = false := by simpa using hne
    rw [List.getElem?_map, List.getElem?_map, hd]
    simp [hb, hne]
  · intro i d hd heq
    have hdmem : d ∈ s.store := List.getElem?_mem hd
    have hdm : d = m := eq_of_nodup_machineIds s.store hnd d m hdmem hmem heq
    subst hdm
    refine ⟨rfl, ?_⟩
    rw [List.getElem?_map, List.getElem?_map, hd]
    simp

theorem requestMachine_frame_witness :
    (handleRequestMachine "l1" "j1"
        ⟨[⟨"m1", "l1", MachineStatus.AVAILABLE, none⟩,
          ⟨"m2", "l1", MachineStatus.AVAILABLE, none⟩], 0, [], 0, 0, []⟩).2.store[1]? =
      some ⟨"m2", "l1", MachineStatus.AVAILABLE, none⟩ :=
  (requestMachine_frame
      ⟨[⟨"m1", "l1", MachineStatus.AVAILABLE, none⟩,
        ⟨"m2", "l1", MachineStatus.AVAILABLE, none⟩], 0, [], 0, 0, []⟩
      "l1" "j1" ⟨"m1", "l1", MachineStatus.AVAILABLE, none⟩
      [⟨"m2", "l1", MachineStatus.AVAILABLE, none⟩]
      (by decide) (by decide)).2.2.1 1
      ⟨"m2", "l1", MachineStatus.AVAILABLE, none⟩ (by decide) (by decide)

/-- The cache after a put answers the put key with the put value. -/
theorem cacheLookup_put_self (l : List (String × MachineStateDocument))
    (id : String) (v : MachineStateDocument) :
    cacheLookup ((id, v) :: l.filter (fun e => !(e.1 == id))) id = some v := by
  simp [cacheLookup]

/-- C5: the get operation is cache-aside — a cache hit is returned as ok
with no Record Store read; on a miss the store is read, an absent record
yields not-found, and a present record is written to the cache and
returned as ok.  Each case is stated as a full input/output equation on
the system state. -/
theorem getMachine_cache_aside (s : SystemState) (id : String) :
    (∀ m : MachineStateDocument, cacheLookup s.cache id = some m →
      handleGetMachine id s =
        (⟨HttpResponseCode.OK, some m⟩,
         { s with cacheGets := s.cacheGets + 1 })) ∧
    (cacheLookup s.cache id = none →
      s.store.find? (fun x => x.machineId == id) = none →
      handleGetMachine id s =
        (⟨HttpResponseCode.NOT_FOUND, none⟩,
         { s with cacheGets := s.cacheGets + 1,
                  dbAccesses := s.dbAccesses + 1 })) ∧
    (∀ m : MachineStateDocument, cacheLookup s.cache id = none →
      s.store.find? (fun x => x.machineId == id) = some m →
      handleGetMachine id s =
        (⟨HttpResponseCode.OK, some m⟩,
         { s with cacheGets := s.cacheGets + 1,
                  dbAccesses := s.dbAccesses + 1,
                  cache := (id, m) :: s.cache.filter (fun e => !(e.1 == id)),
                  cachePuts := s.cachePuts + 1 })) := by
  refine ⟨?_, ?_, ?_⟩
  · intro m hc
    simp [handleGetMachine, cacheGet, hc]
  · intro hc hf
    simp [handleGetMachine, cacheGet, tableGet, hc, hf]
  · intro m hc hf
    simp [handleGetMachine, cacheGet, tableGet, cachePut, hc, hf]

theorem getMachine_cache_aside_witness :
    handleGetMachine "m1"
        ⟨[⟨"m1", "l1", MachineStatus.AVAILABLE, none⟩], 0, [], 0, 0, []⟩ =
      (⟨HttpResponseCode.OK, some ⟨"m1", "l1", MachineStatus.AVAILABLE, none⟩⟩,
       ⟨[⟨"m1", "l1", MachineStatus.AVAILABLE, none⟩], 1,
        [("m1", ⟨"m1", "l1", MachineStatus.AVAILABLE, none⟩)], 1, 1, []⟩) :=
  (getMachine_cache_aside
      ⟨[⟨"m1", "l1", MachineStatus.AVAILABLE, none⟩], 0, [], 0, 0, []⟩
      "m1").2.2 ⟨"m1", "l1", MachineStatus.AVAILABLE, none⟩
      (by decide) (by decide)

/-- C6: a reserve request fails with not-found when the store lists no
machine at the location, and with bad-request when machines exist but
none is AVAILABLE; in both cases the store records, the cache and the
controller log are untouched (only the listing read is performed). -/
theorem requestMachine_failure_cases (s : SystemState) (loc job : String) :
    (s.store.filter (fun x => x.locationId == loc) = [] →
      handleRequestMachine loc job s =
        (⟨HttpResponseCode.NOT_FOUND, none⟩,
         { s with dbAccesses := s.dbAccesses + 1 })) ∧
    (s.store.filter (fun x => x.locationId == loc) ≠ [] →
      (s.store.filter (fun x => x.locationId == loc)).filter
          (fun x => x.status == MachineStatus.AVAILABLE) = [] →
      handleRequestMachine loc job s =
        (⟨HttpResponseCode.BAD_REQUEST, none⟩,
         { s with dbAccesses := s.dbAccesses + 1 })) := by
  constructor
  · intro h
    simp [handleRequestMachine, tableList, h]
  · intro h1 h2
    have hlen : ¬ ((s.store.filter (fun x => x.locationId == loc)).length = 0) := by
      simpa [List.length_eq_zero] using h1
    simp only [handleRequestMachine, tableList]
    rw [if_neg hlen, h2]

theorem requestMachine_failure_cases_witness :
    handleRequestMachine "l9" "j1"
        ⟨[⟨"m1", "l1", MachineStatus.RUNNING, some "j0"⟩], 0, [], 0, 0, []⟩ =
      (⟨HttpResponseCode.NOT_FOUND, none⟩,
       ⟨[⟨"m1", "l1", MachineStatus.RUNNING, some "j0"⟩], 1, [], 0, 0, []⟩) ∧
    handleRequestMachine "l1" "j1"
        ⟨[⟨"m1", "l1", MachineStatus.RUNNING, some "j0"⟩], 0, [], 0, 0, []⟩ =
      (⟨HttpResponseCode.BAD_REQUEST, none⟩,
       ⟨[⟨"m1", "l1", MachineStatus.RUNNING, some "j0"⟩], 1, [], 0, 0, []⟩) :=
  ⟨(requestMachine_failure_cases
      ⟨[⟨"m1", "l1", MachineStatus.RUNNING, some "j0"⟩], 0, [], 0, 0, []⟩
      "l9" "j1").1 (by decide),
   (requestMachine_failure_cases
      ⟨[⟨"m1", "l1", MachineStatus.RUNNING, some "j0"⟩], 0, [], 0, 0, []⟩
      "l1" "j1").2 (by decide) (by decide)⟩

/-- C2: a start request whose resolved snapshot (cached record, or store
record on a cache miss) has a status other than AWAITING_DROPOFF —
including RUNNING — returns bad-request, never invokes the controller,
and mutates neither the store records nor the cache. -/
theorem startMachine_wrong_status (s : SystemState) (id : String)
    (m : MachineStateDocument)
    (hres : resolvedSnapshot s id = some m)
    (hst : m.status ≠ MachineStatus.AWAITING_DROPOFF) :
    (handleStartMachine id s).1 = ⟨HttpResponseCode.BAD_REQUEST, none⟩ ∧
    (handleStartMachine id s).2.store = s.store ∧
    (handleStartMachine id s).2.cache = s.cache ∧
    (handleStartMachine id s).2.cachePuts = s.cachePuts ∧
    (handleStartMachine id s).2.controllerCalls = s.controllerCalls := by
  have hbne : (m.status != MachineStatus.AWAITING_DROPOFF) = true := by
    simpa using hst
  cases hc : cacheLookup s.cache id with
  | some m' =>
    have hm' : m' = m := by
      rw [resolvedSnapshot, hc] at hres
      exact Option.some.inj hres
    subst hm'
    simp [handleStartMachine, cacheGet, hc, hbne]
  | none =>
    have hf : s.store.find? (fun x => x.machineId == id) = some m := by
      rw [resolvedSnapshot, hc] at hres
      exact hres
    simp [handleStartMachine, cacheGet, tableGet, hc, hf, hbne]

theorem startMachine_wrong_status_witness :
    (handleStartMachine "m1"
        ⟨[], 0, [("m1", ⟨"m1", "l1", MachineStatus.RUNNING, some "j1"⟩)],
         0, 0, []⟩).1 =
      ⟨HttpResponseCode.BAD_REQUEST, none⟩ :=
  (startMachine_wrong_status
      ⟨[], 0, [("m1", ⟨"m1", "l1", MachineStatus.RUNNING, some "j1"⟩)],
       0, 0, []⟩
      "m1" ⟨"m1", "l1", MachineStatus.RUNNING, some "j1"⟩
      (by decide) (by decide)).1

/-- C3: a start request whose resolved snapshot has status
AWAITING_DROPOFF invokes the controller exactly once with the machine id,
sets the store record (which exists under key-unique store contents) to
RUNNING, re-reads it, overwrites the cache entry with the re-read record,
and returns ok with it — so cache and store agree on that machine
afterwards. -/
theorem startMachine_awaiting_dropoff (s : SystemState) (id : String)
    (m w : MachineStateDocument)
    (hres : resolvedSnapshot s id = some m)
    (hst : m.status = MachineStatus.AWAITING_DROPOFF)
    (hw : s.store.find? (fun x => x.machineId == id) = some w)
    (hnd : (s.store.map (fun x => x.machineId)).Nodup) :
    (handleStartMachine id s).2.controllerCalls = s.controllerCalls ++ [id] ∧
    (handleStartMachine id s).1 =
      ⟨HttpResponseCode.OK, some { w with status := MachineStatus.RUNNING }⟩ ∧
    (handleStartMachine id s).2.store.find? (fun x => x.machineId == id) =
      some { w with status := MachineStatus.RUNNING } ∧
    cacheLookup (handleStartMachine id s).2.cache id =
      some { w with status := MachineStatus.RUNNING } ∧
    cacheLookup (handleStartMachine id s).2.cache id =
      (handleStartMachine id s).2.store.find? (fun x => x.machineId == id) := by
  have hbne : (m.status != MachineStatus.AWAITING_DROPOFF) = false := by
    simp [hst]
  have hwmem : w ∈ s.store := List.mem_of_find?_eq_some hw
  have hwid : w.machineId = id := by simpa using List.find?_some hw
  have hfind :
      (s.store.map (fun x =>
          if x.machineId == id then
            { x with status := MachineStatus.RUNNING } else x)).find?
        (fun x => x.machineId == id) =
      some { w with status := MachineStatus.RUNNING } :=
    find?_map_update s.store id
      (fun x => { x with status := MachineStatus.RUNNING }) (fun _ => rfl)
      w hwmem hwid hnd
  cases hc : cacheLookup s.cache id with
  | some m' =>
    have hm' : m' = m := by
      rw [resolvedSnapshot, hc] at hres
      exact Option.some.inj hres
    subst hm'
    simp only [handleStartMachine, cacheGet, tableGet, smStartCycle,
      tableUpdateStatus, cachePut, hc, hbne, hfind]
    refine ⟨rfl, rfl, ?_, ?_, ?_⟩
    · simpa using hfind
    · simpa using cacheLookup_put_self _ id _
    · simp [cacheLookup_put_self]
      simpa using hfind.symm
  | none =>
    have hf : s.store.find? (fun x => x.machineId == id) = some m := by
      rw [resolvedSnapshot, hc] at hres
      exact hres
    simp only [handleStartMachine, cacheGet, tableGet, smStartCycle,
      tableUpdateStatus, cachePut, hc, hf, hbne, hfind]
    refine ⟨rfl, rfl, ?_, ?_, ?_⟩
    · simpa using hfind
    · simpa using cacheLookup_put_self _ id _
    · simp [cacheLookup_put_self]
      simpa using hfind.symm

theorem startMachine_awaiting_dropoff_witness :
    (handleStartMachine "m1"
        ⟨[⟨"m1", "l1", MachineStatus.AWAITING_DROPOFF, some "j1"⟩],
         0, [], 0, 0, []⟩).2.controllerCalls = [] ++ ["m1"] :=
  (startMachine_awaiting_dropoff
      ⟨[⟨"m1", "l1", MachineStatus.AWAITING_DROPOFF, some "j1"⟩],
       0, [], 0, 0, []⟩
      "m1" ⟨"m1", "l1", MachineStatus.AWAITING_DROPOFF, some "j1"⟩
      ⟨"m1", "l1", MachineStatus.AWAITING_DROPOFF, some "j1"⟩
      (by decide) (by decide) (by decide) (by decide)).1

/-- C4 counterexample: with an empty cache and a store holding `m1` in
status RUNNING, the start operation resolves `m1` from the store and
returns bad-request, yet the cache is left empty — the store-resolved
record is not written into the cache, contrary to the claim. -/
theorem startMachine_miss_no_populate_cex :
    (handleStartMachine "m1"
        ⟨[⟨"m1", "l1", MachineStatus.RUNNING, some "j1"⟩],
         0, [], 0, 0, []⟩).1.statusCode = HttpResponseCode.BAD_REQUEST ∧
    (⟨[⟨"m1", "l1", MachineStatus.RUNNING, some "j1"⟩],
      0, [], 0, 0, []⟩ : SystemState).store.find?
        (fun x => x.machineId == "m1") =
      some ⟨"m1", "l1", MachineStatus.RUNNING, some "j1"⟩ ∧
    cacheLookup
        (handleStartMachine "m1"
          ⟨[⟨"m1", "l1", MachineStatus.RUNNING, some "j1"⟩],
           0, [], 0, 0, []⟩).2.cache "m1" = none := by
  decide

/-- C4 amended: the start operation resolves its machine cache-first with
a store fallback, but unlike the get operation it does not populate the
cache on a miss — a start request that resolves its machine from the
store (cache miss) and fails the status check returns bad-request with
the cache left exactly unchanged, after one cache read and one store
read. -/
theorem startMachine_miss_no_populate (s : SystemState) (id : String)
    (m : MachineStateDocument)
    (hc : cacheLookup s.cache id = none)
    (hf : s.store.find? (fun x => x.machineId == id) = some m)
    (hst : m.status ≠ MachineStatus.AWAITING_DROPOFF) :
    handleStartMachine id s =
      (⟨HttpResponseCode.BAD_REQUEST, none⟩,
       { s with cacheGets := s.cacheGets + 1,
                dbAccesses := s.dbAccesses + 1 }) := by
  have hbne : (m.status != MachineStatus.AWAITING_DROPOFF) = true := by
    simpa using hst
  simp [handleStartMachine, cacheGet, tableGet, hc, hf, hbne]

theorem startMachine_miss_no_populate_witness :
    handleStartMachine "m1"
        ⟨[⟨"m1", "l1", MachineStatus.RUNNING, some "j1"⟩], 0, [], 0, 0, []⟩ =
      (⟨HttpResponseCode.BAD_REQUEST, none⟩,
       ⟨[⟨"m1", "l1", MachineStatus.RUNNING, some "j1"⟩], 1, [], 1, 0, []⟩) :=
  startMachine_miss_no_populate
    ⟨[⟨"m1", "l1", MachineStatus.RUNNING, some "j1"⟩], 0, [], 0, 0, []⟩
    "m1" ⟨"m1", "l1", MachineStatus.RUNNING, some "j1"⟩
    (by decide) (by decide) (by decide)

/-- C8 counterexample: on an empty store and cache, a first get for `m1`
reads the store once (not-found) and writes nothing to the cache, so the
second identical get reads the store again — the store access counter
reaches 2 — instead of being served from the cache. -/
theorem getMachine_twice_second_store_read_cex :
    (handleGetMachine "m1" ⟨[], 0, [], 0, 0, []⟩).2.dbAccesses = 1 ∧
    cacheLookup (handleGetMachine "m1" ⟨[], 0, [], 0, 0, []⟩).2.cache "m1" =
      none ∧
    (handleGetMachine "m1"
        ((handleGetMachine "m1" ⟨[], 0, [], 0, 0, []⟩).2)).2.dbAccesses = 2 := by
  decide

/-- C8 amended: two consecutive gets for the same machine id never mutate
any store record and always return the same response; when the first get
returns ok (the machine was found in cache or store), the second is a
cache hit: it performs no store read and changes nothing but the cache
read counter.  When the machine is absent, both gets return not-found and
the second performs its own store read. -/
theorem getMachine_twice_idempotent (s : SystemState) (id : String) :
    (handleGetMachine id s).2.store = s.store ∧
    (handleGetMachine id ((handleGetMachine id s).2)).2.store = s.store ∧
    (handleGetMachine id ((handleGetMachine id s).2)).1 =
      (handleGetMachine id s).1 ∧
    ((handleGetMachine id s).1.statusCode = HttpResponseCode.OK →
      handleGetMachine id ((handleGetMachine id s).2) =
        ((handleGetMachine id s).1,
         { (handleGetMachine id s).2 with
             cacheGets := (handleGetMachine id s).2.cacheGets + 1 })) := by
  cases hc : cacheLookup s.cache id with
  | some m =>
    simp [handleGetMachine, cacheGet, hc]
  | none =>
    cases hf : s.store.find? (fun x => x.machineId == id) with
    | none =>
      simp [handleGetMachine, cacheGet, tableGet, hc, hf]
    | some m =>
      simp only [handleGetMachine, cacheGet, tableGet, cachePut, hc, hf]
      simp [cacheLookup_put_self]

theorem getMachine_twice_idempotent_witness :
    handleGetMachine "m1"
        ((handleGetMachine "m1"
          ⟨[⟨"m1", "l1", MachineStatus.AVAILABLE, none⟩], 0, [], 0, 0, []⟩).2) =
      ((handleGetMachine "m1"
          ⟨[⟨"m1", "l1", MachineStatus.AVAILABLE, none⟩], 0, [], 0, 0, []⟩).1,
       { (handleGetMachine "m1"
            ⟨[⟨"m1", "l1", MachineStatus.AVAILABLE, none⟩], 0, [], 0, 0, []⟩).2 with
           cacheGets :=
             (handleGetMachine "m1"
               ⟨[⟨"m1", "l1", MachineStatus.AVAILABLE, none⟩],
                0, [], 0, 0, []⟩).2.cacheGets + 1 }) :=
  (getMachine_twice_idempotent
      ⟨[⟨"m1", "l1", MachineStatus.AVAILABLE, none⟩], 0, [], 0, 0, []⟩
      "m1").2.2.2 (by decide)

/-- C9: a request whose token the authenticator rejects is answered
UNAUTHORIZED with the entire system state untouched — no dispatch, no
cache read or write, no store access and no controller call — uniformly
over every method and path. -/
theorem handle_unauthorized (auth : String → Bool) (req : RequestModel)
    (s : SystemState) (h : auth req.token = false) :
    handle auth req s = (⟨HttpResponseCode.UNAUTHORIZED, none⟩, s) := by
  simp [handle, h]

theorem handle_unauthorized_witness :
    handle (fun _ => false) ⟨"t", "GET", "/machine/m1", "l1", "j1"⟩
        ⟨[⟨"m1", "l1", MachineStatus.AVAILABLE, none⟩], 0, [], 0, 0, []⟩ =
      (⟨HttpResponseCode.UNAUTHORIZED, none⟩,
       ⟨[⟨"m1", "l1", MachineStatus.AVAILABLE, none⟩], 0, [], 0, 0, []⟩) :=
  handle_unauthorized (fun _ => false) ⟨"t", "GET", "/machine/m1", "l1", "j1"⟩
    ⟨[⟨"m1", "l1", MachineStatus.AVAILABLE, none⟩], 0, [], 0, 0, []⟩ rfl

/-! ### Route-matching lemmas for the dispatcher -/

theorem matchGetMachine_bad_id (id : String)
    (hallf : id.data.all isIdChar = false) :
    matchGetMachine ("/machine/" ++ id) = none := by
  have hdata : ("/machine/" ++ id).data = routeBase ++ id.data := rfl
  have htake : (routeBase ++ id.data).take 9 = routeBase :=
    List.take_left routeBase id.data
  have hdrop : (routeBase ++ id.data).drop 9 = id.data :=
    List.drop_left routeBase id.data
  simp only [matchGetMachine, hdata, htake, hdrop, matchIdTail, hallf]
  simp

theorem start_path_data (id : String) :
    ("/machine/" ++ id ++ "/start").data =
      routeBase ++ (id.data ++ startTail) := by
  have h1 : ("/machine/" ++ id ++ "/start").data =
      (routeBase ++ id.data) ++ startTail := rfl
  rw [h1, List.append_assoc]

theorem matchStartMachine_bad_id (id : String)
    (hallf : id.data.all isIdChar = false) :
    matchStartMachine ("/machine/" ++ id ++ "/start") = none := by
  have hdata := start_path_data id
  have htake : (routeBase ++ (id.data ++ startTail)).take 9 = routeBase :=
    List.take_left routeBase (id.data ++ startTail)
  have hdrop : (routeBase ++ (id.data ++ startTail)).drop 9 =
      id.data ++ startTail :=
    List.drop_left routeBase (id.data ++ startTail)
  have hst6 : startTail.length = 6 := rfl
  have hlen : (id.data ++ startTail).length - 6 = id.data.length := by
    rw [List.length_append, hst6]; omega
  have hdrop6 : (id.data ++ startTail).drop ((id.data ++ startTail).length - 6) =
      startTail := by
    rw [hlen]; exact List.drop_left id.data startTail
  have htake6 : (id.data ++ startTail).take ((id.data ++ startTail).length - 6) =
      id.data := by
    rw [hlen]; exact List.take_left id.data startTail
  have h6le : 6 ≤ (id.data ++ startTail).length := by
    rw [List.length_append, hst6]; omega
  simp only [matchStartMachine, hdata, htake, hdrop, hdrop6, htake6,
    matchIdTail, hallf]
  simp [h6le]

theorem start_path_ne_request (id : String) :
    (("/machine/" ++ id ++ "/start") == "/machine/request") = false := by
  rw [beq_eq_false_iff_ne]
  intro heq
  have hdata := congrArg String.data heq
  rw [start_path_data id] at hdata
  have hreq : ("/machine/request" : String).data =
      routeBase ++ ['r', 'e', 'q', 'u', 'e', 's', 't'] := by decide
  rw [hreq] at hdata
  have h2 : id.data ++ startTail = ['r', 'e', 'q', 'u', 'e', 's', 't'] :=
    List.append_cancel_left hdata
  have h3 : startTail <:+ ['r', 'e', 'q', 'u', 'e', 's', 't'] := ⟨id.data, h2⟩
  have h4 : ¬ (startTail <:+ ['r', 'e', 'q', 'u', 'e', 's', 't']) := by decide
  exact h4 h3

/-- C10: the dispatcher only recognises machine ids made of characters
from `[a-zA-Z0-9-]`: an authenticated GET `/machine/{id}` or POST
`/machine/{id}/start` whose id segment contains any other character falls
through every route pattern and is answered by the
INTERNAL_SERVER_ERROR fallback, with the system state — cache, store and
controller log — untouched. -/
theorem handle_invalid_id_char (auth : String → Bool) (s : SystemState)
    (tok loc job id : String)
    (htok : auth tok = true)
    (hbad : ∃ c ∈ id.data, isIdChar c = false) :
    handle auth ⟨tok, "GET", "/machine/" ++ id, loc, job⟩ s =
      (⟨HttpResponseCode.INTERNAL_SERVER_ERROR, none⟩, s) ∧
    handle auth ⟨tok, "POST", "/machine/" ++ id ++ "/start", loc, job⟩ s =
      (⟨HttpResponseCode.INTERNAL_SERVER_ERROR, none⟩, s) := by
  have hallf : id.data.all isIdChar = false := by
    rw [List.all_eq_false]
    rcases hbad with ⟨c, hc1, hc2⟩
    exact ⟨c, hc1, by simp [hc2]⟩
  have hgp : (("GET" : String) == "POST") = false := by decide
  have hgg : (("GET" : String) == "GET") = true := by decide
  have hpp : (("POST" : String) == "POST") = true := by decide
  have hpg : (("POST" : String) == "GET") = false := by decide
  constructor
  · have hg := matchGetMachine_bad_id id hallf
    simp [handle, htok, hg, hgp, hgg]
  · have hsm := matchStartMachine_bad_id id hallf
    have hnr := start_path_ne_request id
    simp [handle, htok, hsm, hnr, hpp, hpg]

theorem handle_invalid_id_char_witness :
    handle (fun _ => true) ⟨"t", "GET", "/machine/" ++ "m_1", "l1", "j1"⟩
        ⟨[], 0, [], 0, 0, []⟩ =
      (⟨HttpResponseCode.INTERNAL_SERVER_ERROR, none⟩,
       ⟨[], 0, [], 0, 0, []⟩) ∧
    handle (fun _ => true)
        ⟨"t", "POST", "/machine/" ++ "m_1" ++ "/start", "l1", "j1"⟩
        ⟨[], 0, [], 0, 0, []⟩ =
      (⟨HttpResponseCode.INTERNAL_SERVER_ERROR, none⟩,
       ⟨[], 0, [], 0, 0, []⟩) :=
  handle_invalid_id_char (fun _ => true) ⟨[], 0, [], 0, 0, []⟩
    "t" "l1" "j1" "m_1" rfl (by decide)
